import Mathlib

set_option maxHeartbeats 1000000
set_option maxRecDepth 4096

/-!
Shallow embedding of the mahjong relay server (`src/server.js`): the room
registry, the room lifecycle operations (create / join / leave / start /
ready / game-state update / player action / disconnect cleanup) and the
broadcast relay, together with the delayed `setTimeout` resync scheduled by
`playerAction`.  Room identifiers are strings (the random generation of
`generateRoomId` is modelled by taking the identifier as a parameter),
connection identities are naturals, and JS values carried in settings,
player names and game states are modelled by `JVal`.
-/

/-- JSON-ish opaque values carried in settings, player names and game state. -/
inductive JVal where
  | num (n : Int)
  | str (s : String)
deriving DecidableEq

/-- JavaScript truthiness for the values we model (`0` and `""` are falsy). -/
def JVal.truthy : JVal → Bool
  | .num n => n != 0
  | .str s => s != ""

/-- JS `v || d` where `v` may be `undefined` (modelled as `none`). -/
def orDefault (v : Option JVal) (d : JVal) : JVal :=
  match v with
  | some x => if x.truthy then x else d
  | none => d

/-- JS truthiness of a possibly-null value (`if (x)`): `null`/`undefined`
fails the test, and so does a stored falsy value such as `0` or `""`. -/
def jsTruthy : Option JVal → Bool
  | some v => v.truthy
  | none => false

/-- A JS object: ordered key/value pairs, first occurrence wins on lookup. -/
abbrev JObj := List (String × JVal)

/-- JS property read `o[key]`. -/
def JObj.get : JObj → String → Option JVal
  | [], _ => none
  | (k, v) :: rest, key => if k = key then some v else JObj.get rest key

/-- JS property assignment: overwrite the first occurrence, else append. -/
def JObj.set : JObj → String → JVal → JObj
  | [], key, v => [(key, v)]
  | (k, w) :: rest, key, v =>
      if k = key then (key, v) :: rest else (k, w) :: JObj.set rest key v

/-- JS spread `{...o, ...s}`: assign every pair of `s` into `o`, in order. -/
def JObj.spread (o s : JObj) : JObj := s.foldl (fun acc p => JObj.set acc p.1 p.2) o

/-- A player record as stored in `room.players`. -/
structure Player where
  id : Nat
  name : JVal
  isHost : Bool
  seat : Nat
deriving DecidableEq

/-- Room status: `'waiting' | 'playing' | 'ended'` (the code only ever sets
the first two). -/
inductive Status where
  | waiting
  | playing
  | ended
deriving DecidableEq

/-- The opaque client-authored game state. -/
abbrev GameState := JVal

/-- A room record as stored in the registry. -/
structure Room where
  players : List Player
  gameState : Option GameState
  hostId : Nat
  settings : JObj
  status : Status
  gameReady : Bool
deriving DecidableEq

abbrev RoomId := String

/-- The room registry `rooms : Map roomId -> room`. -/
abbrev Rooms := List (RoomId × Room)

/-- `rooms.get(roomId)`. -/
def getRoom : Rooms → RoomId → Option Room
  | [], _ => none
  | (k, r) :: rest, roomId => if k = roomId then some r else getRoom rest roomId

/-- `rooms.set(roomId, room)`: overwrite the existing key, else append. -/
def setRoom : Rooms → RoomId → Room → Rooms
  | [], roomId, room => [(roomId, room)]
  | (k, r) :: rest, roomId, room =>
      if k = roomId then (roomId, room) :: rest else (k, r) :: setRoom rest roomId room

/-- `rooms.delete(roomId)`. -/
def delRoom : Rooms → RoomId → Rooms
  | [], _ => []
  | (k, r) :: rest, roomId =>
      if k = roomId then delRoom rest roomId else (k, r) :: delRoom rest roomId

/-- Error string `'房间不存在'` (room not found). -/
def RoomNotFound : String := "房间不存在"

/-- Error string `'房间已满'` (room full). -/
def RoomFull : String := "房间已满"

/-- Error string `'游戏已开始'` (game already started). -/
def GameAlreadyStarted : String := "游戏已开始"

/-- Error string `'需要至少2名玩家才能开始游戏'` (insufficient players). -/
def InsufficientPlayers : String := "需要至少2名玩家才能开始游戏"

/-- Error string `'只有房主可以开始游戏'` (not host). -/
def NotHost : String := "只有房主可以开始游戏"

/-- The settings record built by `createRoom`: the three point defaults via
`||`, then the caller's settings spread over them. -/
def mergeSettings (settings : JObj) : JObj :=
  JObj.spread
    [("basePoints", orDefault (JObj.get settings "basePoints") (.num 2000)),
     ("perFanPoints", orDefault (JObj.get settings "perFanPoints") (.num 1000)),
     ("initialPoints", orDefault (JObj.get settings "initialPoints") (.num 100000))]
    settings

/-- `createRoom(hostId, settings)`; the generated room id is a parameter. -/
def createRoom (rooms : Rooms) (roomId : RoomId) (hostId : Nat) (settings : JObj) : Rooms :=
  setRoom rooms roomId
    { players := [{ id := hostId,
                    name := orDefault (JObj.get settings "playerName") (.str "玩家1"),
                    isHost := true, seat := 0 }],
      gameState := none,
      hostId := hostId,
      settings := mergeSettings settings,
      status := .waiting,
      gameReady := false }

/-- The value returned by `joinRoom`: `{success:false, error}` or
`{success:true, room, seat, player}`. -/
inductive JoinResult where
  | failure (error : String)
  | ok (room : Room) (seat : Nat) (player : Player)
deriving DecidableEq

/-- `joinRoom(roomId, playerId, playerName)`. -/
def joinRoom (rooms : Rooms) (roomId : RoomId) (playerId : Nat) (playerName : Option JVal) :
    Rooms × JoinResult :=
  match getRoom rooms roomId with
  | none => (rooms, .failure RoomNotFound)
  | some room =>
    if room.players.length ≥ 4 then (rooms, .failure RoomFull)
    else if room.status ≠ Status.waiting then (rooms, .failure GameAlreadyStarted)
    else
      let seat := room.players.length
      let player : Player :=
        { id := playerId,
          name := orDefault playerName (.str ("玩家" ++ toString (seat + 1))),
          isHost := false, seat := seat }
      let room' := { room with players := room.players ++ [player] }
      (setRoom rooms roomId room', .ok room' seat player)

/-- `const wasHost = leavingPlayer?.isHost` of `leaveRoom`: the host flag of
the first player whose id matches, `false` when there is none (`undefined`). -/
def wasHostOf (room : Room) (playerId : Nat) : Bool :=
  match room.players.find? (fun p => p.id == playerId) with
  | some p => p.isHost
  | none => false

/-- `leaveRoom(roomId, playerId)`: remove the player, delete the room when it
empties, otherwise promote index 0 when the leaver was host. -/
def leaveRoom (rooms : Rooms) (roomId : RoomId) (playerId : Nat) : Rooms :=
  match getRoom rooms roomId with
  | none => rooms
  | some room =>
    match room.players.filter (fun p => p.id != playerId) with
    | [] => delRoom rooms roomId
    | p :: rest =>
      if wasHostOf room playerId then
        setRoom rooms roomId
          { room with players := { p with isHost := true } :: rest, hostId := p.id }
      else
        setRoom rooms roomId { room with players := p :: rest }

/-- Payloads of the events the server emits. -/
inductive Payload where
  | roomState (players : List Player) (status : Status) (settings : JObj)
      (hostId : Nat) (gameReady : Bool)
  | errorMsg (msg : String)
  | gameStarted (players : List Player) (settings : JObj) (status : Status) (hostId : Nat)
  | gameReadyNotify (gameState : Option GameState)
  | gameStateSync (gameState : Option GameState) (fromPlayer : Nat) (isHost : Bool)
  | actionBroadcast (action : JVal) (params : JVal) (playerSeat : Nat)
      (playerName : JVal) (isHost : Bool)
deriving DecidableEq

/-- An emitted event together with its delivery mode. -/
inductive Emit where
  | toSender (payload : Payload)
  | toRoom (roomId : RoomId) (payload : Payload)
  | toRoomExceptSender (roomId : RoomId) (senderId : Nat) (payload : Payload)
deriving DecidableEq

/-- The `startGame` handler; `connected` models `socket.connected`. -/
def startGame (rooms : Rooms) (roomId : RoomId) (senderId : Nat) (connected : Bool) :
    Rooms × List Emit :=
  match getRoom rooms roomId with
  | none => (rooms, if connected then [.toSender (.errorMsg InsufficientPlayers)] else [])
  | some room =>
    if room.players.length < 2 then
      (rooms, if connected then [.toSender (.errorMsg InsufficientPlayers)] else [])
    else
      match room.players.find? (fun p => p.id == senderId) with
      | none => (rooms, if connected then [.toSender (.errorMsg NotHost)] else [])
      | some host =>
        if !host.isHost then
          (rooms, if connected then [.toSender (.errorMsg NotHost)] else [])
        else
          let room' := { room with status := .playing, gameReady := false }
          (setRoom rooms roomId room',
           [.toRoom roomId (.gameStarted room'.players room'.settings .playing room'.hostId)])

/-- The `gameReady` handler (host-only; otherwise silently ignored). -/
def gameReadyOp (rooms : Rooms) (roomId : RoomId) (senderId : Nat) : Rooms × List Emit :=
  match getRoom rooms roomId with
  | none => (rooms, [])
  | some room =>
    if room.hostId != senderId then (rooms, [])
    else
      (setRoom rooms roomId { room with gameReady := true },
       [.toRoom roomId (.gameReadyNotify room.gameState)])

/-- The `gameStateUpdate` handler: member-only, last-writer-wins replacement,
relay to the rest of the room. -/
def gameStateUpdate (rooms : Rooms) (roomId : RoomId) (senderId : Nat)
    (gs : Option GameState) : Rooms × List Emit :=
  match getRoom rooms roomId with
  | none => (rooms, [])
  | some room =>
    match room.players.find? (fun p => p.id == senderId) with
    | none => (rooms, [])
    | some player =>
      (setRoom rooms roomId { room with gameState := gs },
       [.toRoomExceptSender roomId senderId (.gameStateSync gs player.seat player.isHost)])

/-- A pending `setTimeout` relay scheduled by `playerAction`, carrying the
captured room id, sender, and the acting player's seat and host flag. -/
structure Timer where
  roomId : RoomId
  senderId : Nat
  fromPlayer : Nat
  isHost : Bool
deriving DecidableEq

/-- The `playerAction` handler: broadcast the action to the whole room and,
when the stored game state is truthy (`if (room.gameState)`), schedule the
delayed resync.  The registry is not mutated. -/
def playerAction (rooms : Rooms) (roomId : RoomId) (senderId : Nat)
    (action params : JVal) : Rooms × List Emit × List Timer :=
  match getRoom rooms roomId with
  | none => (rooms, [], [])
  | some room =>
    match room.players.find? (fun p => p.id == senderId) with
    | none => (rooms, [], [])
    | some player =>
      (rooms,
       [.toRoom roomId (.actionBroadcast action params player.seat player.name player.isHost)],
       if jsTruthy room.gameState then [⟨roomId, senderId, player.seat, player.isHost⟩]
       else [])

/-- Disconnect cleanup: `leaveRoom` on every room containing the player. -/
def disconnect (rooms : Rooms) (playerId : Nat) : Rooms :=
  (rooms.map Prod.fst).foldl
    (fun acc roomId =>
      match getRoom acc roomId with
      | some room =>
          if room.players.any (fun p => p.id == playerId) then
            leaveRoom acc roomId playerId
          else acc
      | none => acc)
    rooms

/-- One server-side operation on the registry. -/
inductive Step : Rooms → Rooms → Prop where
  | create (rooms : Rooms) (roomId : RoomId) (hostId : Nat) (settings : JObj) :
      Step rooms (createRoom rooms roomId hostId settings)
  | join (rooms : Rooms) (roomId : RoomId) (playerId : Nat) (playerName : Option JVal) :
      Step rooms (joinRoom rooms roomId playerId playerName).1
  | leave (rooms : Rooms) (roomId : RoomId) (playerId : Nat) :
      Step rooms (leaveRoom rooms roomId playerId)
  | start (rooms : Rooms) (roomId : RoomId) (senderId : Nat) (connected : Bool) :
      Step rooms (startGame rooms roomId senderId connected).1
  | ready (rooms : Rooms) (roomId : RoomId) (senderId : Nat) :
      Step rooms (gameReadyOp rooms roomId senderId).1
  | update (rooms : Rooms) (roomId : RoomId) (senderId : Nat) (gs : Option GameState) :
      Step rooms (gameStateUpdate rooms roomId senderId gs).1
  | act (rooms : Rooms) (roomId : RoomId) (senderId : Nat) (action params : JVal) :
      Step rooms (playerAction rooms roomId senderId action params).1
  | dropConn (rooms : Rooms) (playerId : Nat) :
      Step rooms (disconnect rooms playerId)

/-- Registry states reachable from the empty registry. -/
inductive Reachable : Rooms → Prop where
  | init : Reachable []
  | step {rooms rooms' : Rooms} : Reachable rooms → Step rooms rooms' → Reachable rooms'

/-- Host-at-index-0 shape of a player list (with the given host id). -/
def hostAtHeadL : List Player → Nat → Prop
  | [], _ => True
  | p :: rest, hostId => p.isHost = true ∧ p.id = hostId ∧ ∀ q ∈ rest, q.isHost = false

/-- The host, when the room is non-empty, sits at index 0, carries `hostId`,
and everyone else is a non-host. -/
def hostAtHead (room : Room) : Prop := hostAtHeadL room.players room.hostId

/-- Well-formedness of a registered room: non-empty and host at index 0. -/
def roomWF (room : Room) : Prop := room.players ≠ [] ∧ hostAtHead room

/-- Well-formedness of the registry: every registered room is well-formed. -/
def roomsWF (rooms : Rooms) : Prop :=
  ∀ roomId room, getRoom rooms roomId = some room → roomWF room

/-- Sequencing a list of `joinRoom` calls, collecting the returned results. -/
def joinResults : Rooms → RoomId → List (Nat × Option JVal) → List JoinResult
  | _, _, [] => []
  | rooms, roomId, (pid, pname) :: rest =>
      (joinRoom rooms roomId pid pname).2 ::
        joinResults (joinRoom rooms roomId pid pname).1 roomId rest

/-- The seat assigned by a join result (`none` on failure). -/
def seatOf : JoinResult → Option Nat
  | .ok _ seat _ => some seat
  | .failure _ => none

/-- Concrete scenario (C1): seats {0,3} then a rejoin at seat 2, after which
the host (seat 0) departs. -/
def cRoomsC1 : Rooms :=
  leaveRoom
    (joinRoom
      (leaveRoom
        (leaveRoom
          (joinRoom (joinRoom (joinRoom (createRoom [] "R" 1 []) "R" 2 none).1
            "R" 3 none).1 "R" 4 none).1
          "R" 2)
        "R" 3)
      "R" 5 none).1
    "R" 1

/-- Concrete scenario (C3): a full room whose game has started. -/
def cRoomsC3 : Rooms :=
  (startGame
    (joinRoom (joinRoom (joinRoom (createRoom [] "R" 1 []) "R" 2 none).1
      "R" 3 none).1 "R" 4 none).1
    "R" 1 true).1

/-- Concrete two-player room used by several witnesses. -/
def wRooms : Rooms := (joinRoom (createRoom [] "R" 1 []) "R" 2 none).1

/-- The host player of the concrete witness rooms. -/
def wPlayer1 : Player := { id := 1, name := .str "玩家1", isHost := true, seat := 0 }

/-- The second (non-host) player of the concrete witness rooms. -/
def wPlayer2 : Player := { id := 2, name := .str "玩家2", isHost := false, seat := 1 }

/-- The default merged settings record. -/
def wSettings : JObj :=
  [("basePoints", .num 2000), ("perFanPoints", .num 1000), ("initialPoints", .num 100000)]

/-- The room produced by `createRoom [] "R" 1 []`. -/
def wRoom1 : Room :=
  { players := [wPlayer1], gameState := none, hostId := 1,
    settings := wSettings, status := .waiting, gameReady := false }

/-- The room stored in `wRooms`. -/
def wRoom2 : Room :=
  { players := [wPlayer1, wPlayer2], gameState := none, hostId := 1,
    settings := wSettings, status := .waiting, gameReady := false }

theorem getRoom_setRoom (rooms : Rooms) (i : RoomId) (r : Room) (j : RoomId) :
    getRoom (setRoom rooms i r) j = if i = j then some r else getRoom rooms j := by
  induction rooms with
  | nil => simp [getRoom, setRoom]
  | cons hd tl ih =>
    obtain ⟨k, rm⟩ := hd
    by_cases hk : k = i
    · subst hk
      by_cases hj : k = j <;> simp [getRoom, setRoom, hj]
    · by_cases hj : k = j
      · subst hj
        have : ¬ i = k := fun h => hk h.symm
        simp [getRoom, setRoom, hk, this]
      · simp [getRoom, setRoom, hk, hj, ih]

theorem getRoom_delRoom (rooms : Rooms) (i : RoomId) (j : RoomId) :
    getRoom (delRoom rooms i) j = if i = j then none else getRoom rooms j := by
  induction rooms with
  | nil => simp [getRoom, delRoom]
  | cons hd tl ih =>
    obtain ⟨k, rm⟩ := hd
    by_cases hk : k = i
    · subst hk
      by_cases hj : k = j
      · subst hj; simpa [delRoom] using ih
      · simp [getRoom, delRoom, hj, ih]
    · by_cases hj : k = j
      · subst hj
        have : ¬ i = k := fun h => hk h.symm
        simp [getRoom, delRoom, hk, this]
      · simp [getRoom, delRoom, hk, hj, ih]

/-! ### JS object lemmas -/

theorem JObj.get_set_self (o : JObj) (k : String) (v : JVal) :
    JObj.get (JObj.set o k v) k = some v := by
  induction o with
  | nil => simp [JObj.get, JObj.set]
  | cons hd tl ih =>
    obtain ⟨k', w⟩ := hd
    by_cases hk : k' = k
    · simp [JObj.get, JObj.set, hk]
    · simp [JObj.get, JObj.set, hk, ih]

theorem JObj.get_set_of_ne (o : JObj) (k : String) (v : JVal) (k' : String) (h : k ≠ k') :
    JObj.get (JObj.set o k v) k' = JObj.get o k' := by
  induction o with
  | nil => simp [JObj.get, JObj.set, h]
  | cons hd tl ih =>
    obtain ⟨k₀, w⟩ := hd
    by_cases hk : k₀ = k
    · subst hk
      simp [JObj.get, JObj.set, h]
    · simp [JObj.get, JObj.set, hk, ih]

theorem JObj.get_eq_none_of_not_mem_keys (o : JObj) (k : String)
    (h : k ∉ o.map Prod.fst) : JObj.get o k = none := by
  induction o with
  | nil => simp [JObj.get]
  | cons hd tl ih =>
    obtain ⟨k', v⟩ := hd
    simp only [List.map_cons, List.mem_cons] at h
    push_neg at h
    have hk : k' ≠ k := fun he => h.1 he.symm
    simp [JObj.get, hk, ih h.2]

theorem JObj.get_spread_of_none (o s : JObj) (k : String) (h : JObj.get s k = none) :
    JObj.get (JObj.spread o s) k = JObj.get o k := by
  induction s generalizing o with
  | nil => simp [JObj.spread]
  | cons hd tl ih =>
    obtain ⟨k₁, v₁⟩ := hd
    simp only [JObj.get] at h
    by_cases hk : k₁ = k
    · simp [hk] at h
    · simp only [hk, if_false] at h
      show JObj.get (JObj.spread (JObj.set o k₁ v₁) tl) k = JObj.get o k
      rw [ih _ h, JObj.get_set_of_ne _ _ _ _ hk]

theorem JObj.get_spread_of_some (o s : JObj) (k : String) (v : JVal)
    (hnd : (s.map Prod.fst).Nodup) (h : JObj.get s k = some v) :
    JObj.get (JObj.spread o s) k = some v := by
  induction s generalizing o with
  | nil => simp [JObj.get] at h
  | cons hd tl ih =>
    obtain ⟨k₁, v₁⟩ := hd
    simp only [List.map_cons, List.nodup_cons] at hnd
    simp only [JObj.get] at h
    by_cases hk : k₁ = k
    · subst hk
      have hv : v₁ = v := by simpa using h
      subst hv
      have htl : JObj.get tl k₁ = none :=
        JObj.get_eq_none_of_not_mem_keys tl k₁ hnd.1
      show JObj.get (JObj.spread (JObj.set o k₁ v₁) tl) k₁ = some v₁
      rw [JObj.get_spread_of_none _ _ _ htl, JObj.get_set_self]
    · simp only [hk, if_false] at h
      show JObj.get (JObj.spread (JObj.set o k₁ v₁) tl) k = some v
      exact ih _ hnd.2 h

/-! ### Reduction lemmas for the lifecycle operations -/

theorem leaveRoom_of_none {rooms : Rooms} {roomId : RoomId} {pid : Nat}
    (hg : getRoom rooms roomId = none) : leaveRoom rooms roomId pid = rooms := by
  simp [leaveRoom, hg]

theorem leaveRoom_of_empty {rooms : Rooms} {roomId : RoomId} {pid : Nat} {room : Room}
    (hg : getRoom rooms roomId = some room)
    (hf : room.players.filter (fun p => p.id != pid) = []) :
    leaveRoom rooms roomId pid = delRoom rooms roomId := by
  simp [leaveRoom, hg, hf]

theorem leaveRoom_of_host {rooms : Rooms} {roomId : RoomId} {pid : Nat} {room : Room}
    {p : Player} {rest : List Player}
    (hg : getRoom rooms roomId = some room)
    (hf : room.players.filter (fun q => q.id != pid) = p :: rest)
    (hw : wasHostOf room pid = true) :
    leaveRoom rooms roomId pid =
      setRoom rooms roomId
        { room with players := { p with isHost := true } :: rest, hostId := p.id } := by
  simp [leaveRoom, hg, hf, hw]

theorem leaveRoom_of_nonhost {rooms : Rooms} {roomId : RoomId} {pid : Nat} {room : Room}
    {p : Player} {rest : List Player}
    (hg : getRoom rooms roomId = some room)
    (hf : room.players.filter (fun q => q.id != pid) = p :: rest)
    (hw : wasHostOf room pid = false) :
    leaveRoom rooms roomId pid = setRoom rooms roomId { room with players := p :: rest } := by
  simp [leaveRoom, hg, hf, hw]

theorem joinRoom_of_none {rooms : Rooms} {roomId : RoomId} {pid : Nat} {pname : Option JVal}
    (hg : getRoom rooms roomId = none) :
    joinRoom rooms roomId pid pname = (rooms, .failure RoomNotFound) := by
  simp [joinRoom, hg]

theorem joinRoom_of_full {rooms : Rooms} {roomId : RoomId} {pid : Nat} {pname : Option JVal}
    {room : Room} (hg : getRoom rooms roomId = some room)
    (h4 : room.players.length ≥ 4) :
    joinRoom rooms roomId pid pname = (rooms, .failure RoomFull) := by
  simp [joinRoom, hg, h4]

theorem joinRoom_of_started {rooms : Rooms} {roomId : RoomId} {pid : Nat} {pname : Option JVal}
    {room : Room} (hg : getRoom rooms roomId = some room)
    (h4 : room.players.length < 4) (hs : room.status ≠ Status.waiting) :
    joinRoom rooms roomId pid pname = (rooms, .failure GameAlreadyStarted) := by
  have h4' : ¬ room.players.length ≥ 4 := by omega
  simp [joinRoom, hg, h4', hs]

theorem joinRoom_success {rooms : Rooms} {roomId : RoomId} {pid : Nat} {pname : Option JVal}
    {room : Room} (hg : getRoom rooms roomId = some room)
    (h4 : room.players.length < 4) (hs : room.status = Status.waiting) :
    joinRoom rooms roomId pid pname =
      (setRoom rooms roomId
        { room with players := room.players ++
            [{ id := pid,
               name := orDefault pname (.str ("玩家" ++ toString (room.players.length + 1))),
               isHost := false, seat := room.players.length }] },
       .ok { room with players := room.players ++
            [{ id := pid,
               name := orDefault pname (.str ("玩家" ++ toString (room.players.length + 1))),
               isHost := false, seat := room.players.length }] }
         room.players.length
         { id := pid,
           name := orDefault pname (.str ("玩家" ++ toString (room.players.length + 1))),
           isHost := false, seat := room.players.length }) := by
  have h4' : ¬ room.players.length ≥ 4 := by omega
  simp [joinRoom, hg, h4', hs]

/-! ### Well-formedness preservation -/

theorem roomsWF_setRoom {rooms : Rooms} {roomId : RoomId} {room : Room}
    (h : roomsWF rooms) (hr : roomWF room) : roomsWF (setRoom rooms roomId room) := by
  intro j r hj
  rw [getRoom_setRoom] at hj
  by_cases hij : roomId = j
  · rw [if_pos hij] at hj
    cases hj
    exact hr
  · rw [if_neg hij] at hj
    exact h j r hj

theorem roomsWF_delRoom {rooms : Rooms} {roomId : RoomId}
    (h : roomsWF rooms) : roomsWF (delRoom rooms roomId) := by
  intro j r hj
  rw [getRoom_delRoom] at hj
  by_cases hij : roomId = j
  · rw [if_pos hij] at hj
    cases hj
  · rw [if_neg hij] at hj
    exact h j r hj

theorem roomWF_createRoom (hostId : Nat) (settings : JObj) :
    roomWF
      { players := [{ id := hostId,
                      name := orDefault (JObj.get settings "playerName") (.str "玩家1"),
                      isHost := true, seat := 0 }],
        gameState := none,
        hostId := hostId,
        settings := mergeSettings settings,
        status := .waiting,
        gameReady := false } := by
  refine ⟨by simp, ?_⟩
  simp [hostAtHead, hostAtHeadL]

theorem roomsWF_createRoom {rooms : Rooms} (h : roomsWF rooms)
    (roomId : RoomId) (hostId : Nat) (settings : JObj) :
    roomsWF (createRoom rooms roomId hostId settings) :=
  roomsWF_setRoom h (roomWF_createRoom hostId settings)

theorem roomWF_append_nonhost {room : Room} (h : roomWF room)
    {p : Player} (hp : p.isHost = false) :
    roomWF { room with players := room.players ++ [p] } := by
  obtain ⟨hne, hah⟩ := h
  obtain ⟨q, qs, hql⟩ : ∃ q qs, room.players = q :: qs := by
    cases hpl : room.players with
    | nil => exact absurd hpl hne
    | cons q qs => exact ⟨q, qs, rfl⟩
  unfold hostAtHead at hah
  rw [hql] at hah
  obtain ⟨h1, h2, h3⟩ := hah
  refine ⟨by simp [hql], ?_⟩
  unfold hostAtHead
  simp only [hql, List.cons_append]
  refine ⟨h1, h2, ?_⟩
  intro x hx
  rcases List.mem_append.1 hx with hx1 | hx2
  · exact h3 x hx1
  · rw [List.mem_singleton.1 hx2]
    exact hp

theorem roomsWF_joinRoom {rooms : Rooms} (h : roomsWF rooms)
    (roomId : RoomId) (pid : Nat) (pname : Option JVal) :
    roomsWF (joinRoom rooms roomId pid pname).1 := by
  cases hg : getRoom rooms roomId with
  | none => rw [joinRoom_of_none hg]; exact h
  | some room =>
    by_cases h4 : room.players.length ≥ 4
    · rw [joinRoom_of_full hg h4]; exact h
    · have h4' : room.players.length < 4 := by omega
      by_cases hs : room.status = Status.waiting
      · rw [joinRoom_success hg h4' hs]
        exact roomsWF_setRoom h (roomWF_append_nonhost (h _ _ hg) rfl)
      · rw [joinRoom_of_started hg h4' hs]; exact h

theorem roomsWF_leaveRoom {rooms : Rooms} (h : roomsWF rooms)
    (roomId : RoomId) (pid : Nat) :
    roomsWF (leaveRoom rooms roomId pid) := by
  cases hg : getRoom rooms roomId with
  | none => rw [leaveRoom_of_none hg]; exact h
  | some room =>
    obtain ⟨hne, hah⟩ := h _ _ hg
    obtain ⟨q, qs, hql⟩ : ∃ q qs, room.players = q :: qs := by
      cases hpl : room.players with
      | nil => exact absurd hpl hne
      | cons q qs => exact ⟨q, qs, rfl⟩
    unfold hostAtHead at hah
    rw [hql] at hah
    obtain ⟨hq1, hq2, hq3⟩ := hah
    cases hf : room.players.filter (fun p => p.id != pid) with
    | nil => rw [leaveRoom_of_empty hg hf]; exact roomsWF_delRoom h
    | cons p rest =>
      by_cases hw : wasHostOf room pid = true
      · rw [leaveRoom_of_host hg hf hw]
        apply roomsWF_setRoom h
        refine ⟨by simp, ?_⟩
        unfold hostAtHead
        refine ⟨rfl, rfl, ?_⟩
        intro x hx
        have hxf : x ∈ room.players.filter (fun p => p.id != pid) := by
          rw [hf]; exact List.mem_cons_of_mem p hx
        have hxm : x ∈ room.players := (List.mem_filter.1 hxf).1
        have hxne : (x.id != pid) = true := (List.mem_filter.1 hxf).2
        rw [hql] at hxm
        rcases List.mem_cons.1 hxm with hxq | hxqs
        · -- x is the old head: then its id is pid (the host left), contradiction
          exfalso
          unfold wasHostOf at hw
          rw [hql] at hw
          by_cases hqp : (q.id == pid) = true
          · have hfind : (q :: qs).find? (fun p => p.id == pid) = some q :=
              List.find?_cons_of_pos qs hqp
            rw [hfind] at hw
            have : q.id = pid := by simpa using hqp
            rw [hxq] at hxne
            simp [this] at hxne
          · have hfind : (q :: qs).find? (fun p => p.id == pid) =
                qs.find? (fun p => p.id == pid) :=
              List.find?_cons_of_neg qs hqp
            rw [hfind] at hw
            cases hfind2 : qs.find? (fun p => p.id == pid) with
            | none =>
              rw [hfind2] at hw
              exact Bool.false_ne_true hw
            | some f =>
              rw [hfind2] at hw
              have hfm : f ∈ qs := List.mem_of_find?_eq_some hfind2
              have hwf : f.isHost = true := hw
              rw [hq3 f hfm] at hwf
              exact Bool.false_ne_true hwf
        · exact hq3 x hxqs
      · have hw' : wasHostOf room pid = false := by
          cases hww : wasHostOf room pid
          · rfl
          · exact absurd hww hw
        rw [leaveRoom_of_nonhost hg hf hw']
        apply roomsWF_setRoom h
        -- the head survives the filter: q.id ≠ pid, so p = q and rest ⊆ qs
        have hqp : (q.id == pid) = false := by
          by_cases hqp : (q.id == pid) = true
          · exfalso
            unfold wasHostOf at hw'
            rw [hql] at hw'
            have hfind : (q :: qs).find? (fun p => p.id == pid) = some q :=
              List.find?_cons_of_pos qs hqp
            rw [hfind] at hw'
            have hwq : q.isHost = false := hw'
            rw [hq1] at hwq
            exact Bool.false_ne_true hwq.symm
          · cases hqq : (q.id == pid)
            · rfl
            · exact absurd hqq hqp
        have hfq : room.players.filter (fun p => p.id != pid) =
            q :: qs.filter (fun p => p.id != pid) := by
          rw [hql]
          rw [List.filter_cons_of_pos]
          simp [bne, hqp]
        rw [hfq] at hf
        have hpq : p = q := (List.cons.injEq _ _ _ _ ▸ hf).1.symm
        have hrest : rest = qs.filter (fun p => p.id != pid) :=
          ((List.cons.injEq _ _ _ _ ▸ hf).2).symm
        refine ⟨by simp, ?_⟩
        unfold hostAtHead
        refine ⟨by rw [hpq]; exact hq1, by rw [hpq]; exact hq2, ?_⟩
        intro x hx
        rw [hrest] at hx
        exact hq3 x (List.mem_filter.1 hx).1

theorem startGame_of_absent {rooms : Rooms} {roomId : RoomId} {sid : Nat} {c : Bool}
    (hg : getRoom rooms roomId = none) :
    startGame rooms roomId sid c =
      (rooms, if c then [.toSender (.errorMsg InsufficientPlayers)] else []) := by
  simp [startGame, hg]

theorem startGame_insufficient {rooms : Rooms} {roomId : RoomId} {sid : Nat} {c : Bool}
    {room : Room} (hg : getRoom rooms roomId = some room)
    (h2 : room.players.length < 2) :
    startGame rooms roomId sid c =
      (rooms, if c then [.toSender (.errorMsg InsufficientPlayers)] else []) := by
  simp [startGame, hg, h2]

theorem startGame_no_member {rooms : Rooms} {roomId : RoomId} {sid : Nat} {c : Bool}
    {room : Room} (hg : getRoom rooms roomId = some room)
    (h2 : ¬ room.players.length < 2)
    (hfind : room.players.find? (fun p => p.id == sid) = none) :
    startGame rooms roomId sid c =
      (rooms, if c then [.toSender (.errorMsg NotHost)] else []) := by
  simp [startGame, hg, h2, hfind]

theorem startGame_not_host {rooms : Rooms} {roomId : RoomId} {sid : Nat} {c : Bool}
    {room : Room} {f : Player} (hg : getRoom rooms roomId = some room)
    (h2 : ¬ room.players.length < 2)
    (hfind : room.players.find? (fun p => p.id == sid) = some f)
    (hh : f.isHost = false) :
    startGame rooms roomId sid c =
      (rooms, if c then [.toSender (.errorMsg NotHost)] else []) := by
  simp [startGame, hg, h2, hfind, hh]

theorem startGame_success {rooms : Rooms} {roomId : RoomId} {sid : Nat} {c : Bool}
    {room : Room} {f : Player} (hg : getRoom rooms roomId = some room)
    (h2 : ¬ room.players.length < 2)
    (hfind : room.players.find? (fun p => p.id == sid) = some f)
    (hh : f.isHost = true) :
    startGame rooms roomId sid c =
      (setRoom rooms roomId { room with status := .playing, gameReady := false },
       [.toRoom roomId (.gameStarted room.players room.settings .playing room.hostId)]) := by
  simp [startGame, hg, h2, hfind, hh]

theorem roomsWF_startGame {rooms : Rooms} (h : roomsWF rooms)
    (roomId : RoomId) (senderId : Nat) (connected : Bool) :
    roomsWF (startGame rooms roomId senderId connected).1 := by
  cases hg : getRoom rooms roomId with
  | none => rw [startGame_of_absent hg]; exact h
  | some room =>
    by_cases h2 : room.players.length < 2
    · rw [startGame_insufficient hg h2]; exact h
    · cases hfind : room.players.find? (fun p => p.id == senderId) with
      | none => rw [startGame_no_member hg h2 hfind]; exact h
      | some f =>
        cases hh : f.isHost with
        | false => rw [startGame_not_host hg h2 hfind hh]; exact h
        | true =>
          rw [startGame_success hg h2 hfind hh]
          obtain ⟨hne, hah⟩ := h _ _ hg
          exact roomsWF_setRoom h ⟨hne, hah⟩

theorem gameReadyOp_of_absent {rooms : Rooms} {roomId : RoomId} {sid : Nat}
    (hg : getRoom rooms roomId = none) : gameReadyOp rooms roomId sid = (rooms, []) := by
  simp [gameReadyOp, hg]

theorem gameReadyOp_not_host {rooms : Rooms} {roomId : RoomId} {sid : Nat} {room : Room}
    (hg : getRoom rooms roomId = some room) (hh : room.hostId ≠ sid) :
    gameReadyOp rooms roomId sid = (rooms, []) := by
  simp [gameReadyOp, hg, hh]

theorem gameReadyOp_host {rooms : Rooms} {roomId : RoomId} {sid : Nat} {room : Room}
    (hg : getRoom rooms roomId = some room) (hh : room.hostId = sid) :
    gameReadyOp rooms roomId sid =
      (setRoom rooms roomId { room with gameReady := true },
       [.toRoom roomId (.gameReadyNotify room.gameState)]) := by
  simp [gameReadyOp, hg, hh]

theorem roomsWF_gameReadyOp {rooms : Rooms} (h : roomsWF rooms)
    (roomId : RoomId) (senderId : Nat) :
    roomsWF (gameReadyOp rooms roomId senderId).1 := by
  cases hg : getRoom rooms roomId with
  | none => rw [gameReadyOp_of_absent hg]; exact h
  | some room =>
    by_cases hh : room.hostId = senderId
    · rw [gameReadyOp_host hg hh]
      obtain ⟨hne, hah⟩ := h _ _ hg
      exact roomsWF_setRoom h ⟨hne, hah⟩
    · rw [gameReadyOp_not_host hg hh]; exact h

theorem gameStateUpdate_of_absent {rooms : Rooms} {roomId : RoomId} {sid : Nat}
    {gs : Option GameState} (hg : getRoom rooms roomId = none) :
    gameStateUpdate rooms roomId sid gs = (rooms, []) := by
  simp [gameStateUpdate, hg]

theorem gameStateUpdate_no_member {rooms : Rooms} {roomId : RoomId} {sid : Nat}
    {gs : Option GameState} {room : Room} (hg : getRoom rooms roomId = some room)
    (hfind : room.players.find? (fun p => p.id == sid) = none) :
    gameStateUpdate rooms roomId sid gs = (rooms, []) := by
  simp [gameStateUpdate, hg, hfind]

theorem gameStateUpdate_member {rooms : Rooms} {roomId : RoomId} {sid : Nat}
    {gs : Option GameState} {room : Room} {player : Player}
    (hg : getRoom rooms roomId = some room)
    (hfind : room.players.find? (fun p => p.id == sid) = some player) :
    gameStateUpdate rooms roomId sid gs =
      (setRoom rooms roomId { room with gameState := gs },
       [.toRoomExceptSender roomId sid (.gameStateSync gs player.seat player.isHost)]) := by
  simp [gameStateUpdate, hg, hfind]

theorem roomsWF_gameStateUpdate {rooms : Rooms} (h : roomsWF rooms)
    (roomId : RoomId) (senderId : Nat) (gs : Option GameState) :
    roomsWF (gameStateUpdate rooms roomId senderId gs).1 := by
  cases hg : getRoom rooms roomId with
  | none => rw [gameStateUpdate_of_absent hg]; exact h
  | some room =>
    cases hfind : room.players.find? (fun p => p.id == senderId) with
    | none => rw [gameStateUpdate_no_member hg hfind]; exact h
    | some player =>
      rw [gameStateUpdate_member hg hfind]
      obtain ⟨hne, hah⟩ := h _ _ hg
      exact roomsWF_setRoom h ⟨hne, hah⟩

theorem playerAction_of_absent {rooms : Rooms} {roomId : RoomId} {sid : Nat}
    {action params : JVal} (hg : getRoom rooms roomId = none) :
    playerAction rooms roomId sid action params = (rooms, [], []) := by
  simp [playerAction, hg]

theorem playerAction_no_member {rooms : Rooms} {roomId : RoomId} {sid : Nat}
    {action params : JVal} {room : Room} (hg : getRoom rooms roomId = some room)
    (hfind : room.players.find? (fun p => p.id == sid) = none) :
    playerAction rooms roomId sid action params = (rooms, [], []) := by
  simp [playerAction, hg, hfind]

theorem playerAction_member {rooms : Rooms} {roomId : RoomId} {sid : Nat}
    {action params : JVal} {room : Room} {player : Player}
    (hg : getRoom rooms roomId = some room)
    (hfind : room.players.find? (fun p => p.id == sid) = some player) :
    playerAction rooms roomId sid action params =
      (rooms,
       [.toRoom roomId (.actionBroadcast action params player.seat player.name player.isHost)],
       if jsTruthy room.gameState then [⟨roomId, sid, player.seat, player.isHost⟩]
       else []) := by
  simp [playerAction, hg, hfind]

theorem playerAction_fst (rooms : Rooms) (roomId : RoomId) (senderId : Nat)
    (action params : JVal) :
    (playerAction rooms roomId senderId action params).1 = rooms := by
  cases hg : getRoom rooms roomId with
  | none => rw [playerAction_of_absent hg]
  | some room =>
    cases hfind : room.players.find? (fun p => p.id == senderId) with
    | none => rw [playerAction_no_member hg hfind]
    | some player => rw [playerAction_member hg hfind]

theorem roomsWF_disconnect {rooms : Rooms} (h : roomsWF rooms) (pid : Nat) :
    roomsWF (disconnect rooms pid) := by
  unfold disconnect
  generalize rooms.map Prod.fst = ids
  induction ids generalizing rooms with
  | nil => exact h
  | cons i rest ih =>
    simp only [List.foldl_cons]
    apply ih
    cases hg : getRoom rooms i with
    | none => simpa [hg] using h
    | some room =>
      by_cases hmem : room.players.any (fun p => p.id == pid)
      · simpa [hg, hmem] using roomsWF_leaveRoom h i pid
      · simpa [hg, hmem] using h

theorem roomsWF_step {rooms rooms' : Rooms} (h : roomsWF rooms) (hs : Step rooms rooms') :
    roomsWF rooms' := by
  cases hs with
  | create roomId hostId settings => exact roomsWF_createRoom h roomId hostId settings
  | join roomId playerId playerName => exact roomsWF_joinRoom h roomId playerId playerName
  | leave roomId playerId => exact roomsWF_leaveRoom h roomId playerId
  | start roomId senderId connected => exact roomsWF_startGame h roomId senderId connected
  | ready roomId senderId => exact roomsWF_gameReadyOp h roomId senderId
  | update roomId senderId gs => exact roomsWF_gameStateUpdate h roomId senderId gs
  | act roomId senderId action params =>
      rw [playerAction_fst]; exact h
  | dropConn playerId => exact roomsWF_disconnect h playerId

theorem roomsWF_of_reachable {rooms : Rooms} (h : Reachable rooms) : roomsWF rooms := by
  induction h with
  | init => intro roomId room hg; cases hg
  | step _ hs ih => exact roomsWF_step ih hs

/-! ### Claim theorems -/

/-- C2: for every reachable registry state (closed under all the operations:
createRoom, joinRoom, leaveRoom, startGame, gameReady, gameStateUpdate,
playerAction, disconnect), whenever a registered room has at least one
player, exactly one player has `isHost = true` and the room's `hostId`
equals that player's id. -/
theorem reachable_host_unique {rooms : Rooms} (h : Reachable rooms)
    (roomId : RoomId) (room : Room) (hg : getRoom rooms roomId = some room)
    (hne : room.players ≠ []) :
    room.players.countP (fun p => p.isHost) = 1 ∧
    ∀ p ∈ room.players, p.isHost = true → p.id = room.hostId := by
  obtain ⟨_, hah⟩ := roomsWF_of_reachable h roomId room hg
  obtain ⟨q, qs, hql⟩ : ∃ q qs, room.players = q :: qs := by
    cases hpl : room.players with
    | nil => exact absurd hpl hne
    | cons q qs => exact ⟨q, qs, rfl⟩
  unfold hostAtHead at hah
  rw [hql] at hah
  obtain ⟨h1, h2, h3⟩ := hah
  constructor
  · rw [hql, List.countP_cons_of_pos _ _ (by simpa using h1)]
    have hz : qs.countP (fun p => p.isHost) = 0 :=
      List.countP_eq_zero.2 (fun a ha => by simp [h3 a ha])
    rw [hz]
  · intro p hp hhost
    rw [hql] at hp
    rcases List.mem_cons.1 hp with hpq | hpm
    · rw [hpq]; exact h2
    · exact absurd hhost (by simp [h3 p hpm])

/-- C2 witness: the claim instantiated on the freshly created room `wRoom1`. -/
theorem reachable_host_unique_witness :
    wRoom1.players.countP (fun p => p.isHost) = 1 ∧
    ∀ p ∈ wRoom1.players, p.isHost = true → p.id = wRoom1.hostId :=
  reachable_host_unique
    (Reachable.step Reachable.init (Step.create [] "R" 1 []))
    "R" wRoom1 (by decide) (by decide)

/-- C5: in every reachable registry a registered room has at least one player
(so presence in the registry implies non-emptiness), and any `leaveRoom`
(including the one `disconnect` performs) that removes the last player
deletes the room, after which `getRoom` returns `none`. -/
theorem room_present_iff_nonempty {rooms : Rooms} (h : Reachable rooms) :
    (∀ roomId room, getRoom rooms roomId = some room → room.players ≠ []) ∧
    (∀ roomId room pid, getRoom rooms roomId = some room →
      room.players.filter (fun p => p.id != pid) = [] →
      getRoom (leaveRoom rooms roomId pid) roomId = none) := by
  constructor
  · intro roomId room hg
    exact (roomsWF_of_reachable h roomId room hg).1
  · intro roomId room pid hg hf
    rw [leaveRoom_of_empty hg hf, getRoom_delRoom]
    simp

/-- C5 witness: the sole player leaves the fresh room and the registry entry
is gone. -/
theorem room_present_iff_nonempty_witness :
    wRoom1.players ≠ [] ∧
    getRoom (leaveRoom (createRoom [] "R" 1 []) "R" 1) "R" = none :=
  ⟨(room_present_iff_nonempty
      (Reachable.step Reachable.init (Step.create [] "R" 1 []))).1 "R" wRoom1 (by decide),
   (room_present_iff_nonempty
      (Reachable.step Reachable.init (Step.create [] "R" 1 []))).2 "R" wRoom1 1
      (by decide) (by decide)⟩

/-- C8: the settings stored by `createRoom` are the merge of the point
defaults (2000/1000/100000) with the caller's settings; any caller-supplied
key (the three point keys included) is stored verbatim, and each point key
defaults exactly when the caller did not supply it. -/
theorem createRoom_settings_merge (settings : JObj)
    (hnd : (settings.map Prod.fst).Nodup) :
    (∀ rooms roomId hostId,
      ∃ room, getRoom (createRoom rooms roomId hostId settings) roomId = some room ∧
        room.settings = mergeSettings settings) ∧
    (JObj.get settings "basePoints" = none →
      JObj.get (mergeSettings settings) "basePoints" = some (.num 2000)) ∧
    (JObj.get settings "perFanPoints" = none →
      JObj.get (mergeSettings settings) "perFanPoints" = some (.num 1000)) ∧
    (JObj.get settings "initialPoints" = none →
      JObj.get (mergeSettings settings) "initialPoints" = some (.num 100000)) ∧
    (∀ k v, JObj.get settings k = some v →
      JObj.get (mergeSettings settings) k = some v) := by
  refine ⟨?_, ?_, ?_, ?_, ?_⟩
  · intro rooms roomId hostId
    have hroom : getRoom (createRoom rooms roomId hostId settings) roomId = some
        ({ players := [{ id := hostId,
                         name := orDefault (JObj.get settings "playerName") (.str "玩家1"),
                         isHost := true, seat := 0 }],
           gameState := none, hostId := hostId,
           settings := mergeSettings settings,
           status := .waiting, gameReady := false } : Room) := by
      unfold createRoom
      rw [getRoom_setRoom]
      simp
    exact ⟨_, hroom, rfl⟩
  · intro hb
    unfold mergeSettings
    rw [JObj.get_spread_of_none _ _ _ hb]
    simp [JObj.get, orDefault, hb]
  · intro hb
    unfold mergeSettings
    rw [JObj.get_spread_of_none _ _ _ hb]
    simp [JObj.get, orDefault, hb]
  · intro hb
    unfold mergeSettings
    rw [JObj.get_spread_of_none _ _ _ hb]
    simp [JObj.get, orDefault, hb]
  · intro k v hk
    exact JObj.get_spread_of_some _ _ _ _ hnd hk

/-- C8 witness: a caller supplying `initialPoints` and an extra key gets the
defaults for the other two point keys and its own values verbatim. -/
theorem createRoom_settings_merge_witness :
    (∃ room,
      getRoom (createRoom [] "R" 7 [("initialPoints", .num 50000), ("playerName", .str "Ann")])
        "R" = some room ∧
      room.settings =
        mergeSettings [("initialPoints", .num 50000), ("playerName", .str "Ann")]) ∧
    JObj.get (mergeSettings [("initialPoints", .num 50000), ("playerName", .str "Ann")])
      "basePoints" = some (.num 2000) ∧
    JObj.get (mergeSettings [("initialPoints", .num 50000), ("playerName", .str "Ann")])
      "perFanPoints" = some (.num 1000) ∧
    JObj.get (mergeSettings [("initialPoints", .num 50000), ("playerName", .str "Ann")])
      "initialPoints" = some (.num 50000) ∧
    JObj.get (mergeSettings [("initialPoints", .num 50000), ("playerName", .str "Ann")])
      "playerName" = some (.str "Ann") := by
  have h := createRoom_settings_merge
    [("initialPoints", .num 50000), ("playerName", .str "Ann")] (by decide)
  exact ⟨h.1 [] "R" 7,
         h.2.1 (by decide),
         h.2.2.1 (by decide),
         h.2.2.2.2 "initialPoints" (.num 50000) (by decide),
         h.2.2.2.2 "playerName" (.str "Ann") (by decide)⟩

/-- C7: a `gameStateUpdate` from a non-member (or for an absent room) leaves
the registry — hence the stored `gameState` — untouched and emits nothing;
from a member it replaces the stored `gameState` wholesale, whatever it was,
and relays a sync to the rest of the room carrying the submitter's seat and
host flag. -/
theorem gameStateUpdate_behavior (rooms : Rooms) (roomId : RoomId) (sid : Nat)
    (gs : Option GameState) :
    (getRoom rooms roomId = none → gameStateUpdate rooms roomId sid gs = (rooms, [])) ∧
    (∀ room, getRoom rooms roomId = some room →
      (∀ p ∈ room.players, p.id ≠ sid) →
      gameStateUpdate rooms roomId sid gs = (rooms, [])) ∧
    (∀ room player, getRoom rooms roomId = some room →
      room.players.find? (fun p => p.id == sid) = some player →
      gameStateUpdate rooms roomId sid gs =
        (setRoom rooms roomId { room with gameState := gs },
         [.toRoomExceptSender roomId sid (.gameStateSync gs player.seat player.isHost)]) ∧
      getRoom (gameStateUpdate rooms roomId sid gs).1 roomId =
        some { room with gameState := gs }) := by
  refine ⟨?_, ?_, ?_⟩
  · intro hg
    exact gameStateUpdate_of_absent hg
  · intro room hg hnm
    have hfind : room.players.find? (fun p => p.id == sid) = none := by
      rw [List.find?_eq_none]
      intro x hx
      simp [hnm x hx]
    exact gameStateUpdate_no_member hg hfind
  · intro room player hg hfind
    refine ⟨gameStateUpdate_member hg hfind, ?_⟩
    rw [gameStateUpdate_member hg hfind]
    show getRoom (setRoom rooms roomId _) roomId = _
    rw [getRoom_setRoom]
    simp

/-- C7 witness: on the concrete two-player room, an update from non-member 9
is a no-op and an update from member 2 replaces the state and relays the
sync with seat 1 and host flag false. -/
theorem gameStateUpdate_behavior_witness :
    (gameStateUpdate wRooms "X" 2 (some (.num 5)) = (wRooms, [])) ∧
    (gameStateUpdate wRooms "R" 9 (some (.num 5)) = (wRooms, [])) ∧
    (gameStateUpdate wRooms "R" 2 (some (.num 5)) =
      (setRoom wRooms "R" { wRoom2 with gameState := some (.num 5) },
       [.toRoomExceptSender "R" 2
         (.gameStateSync (some (.num 5)) wPlayer2.seat wPlayer2.isHost)]) ∧
     getRoom (gameStateUpdate wRooms "R" 2 (some (.num 5))).1 "R" =
       some { wRoom2 with gameState := some (.num 5) }) :=
  ⟨(gameStateUpdate_behavior wRooms "X" 2 (some (.num 5))).1 (by decide),
   (gameStateUpdate_behavior wRooms "R" 9 (some (.num 5))).2.1 wRoom2 (by decide)
     (by decide),
   (gameStateUpdate_behavior wRooms "R" 2 (some (.num 5))).2.2 wRoom2 wPlayer2
     (by decide) (by decide)⟩

/-- C6: `startGame` (from a connected requester) fails with
`InsufficientPlayers` when the room has fewer than 2 players; with at least
2 players it fails with `NotHost` when the requester is not the current
host; when the requester is the host it sets `status = playing`,
`gameReady = false` and emits `gameStarted` to the whole room; failing
requests leave the registry unchanged. -/
theorem startGame_behavior (rooms : Rooms) (roomId : RoomId) (sid : Nat) :
    (∀ room, getRoom rooms roomId = some room → room.players.length < 2 →
      startGame rooms roomId sid true = (rooms, [.toSender (.errorMsg InsufficientPlayers)])) ∧
    (∀ room, getRoom rooms roomId = some room → 2 ≤ room.players.length →
      (∀ p ∈ room.players, p.id = sid → p.isHost = false) →
      startGame rooms roomId sid true = (rooms, [.toSender (.errorMsg NotHost)])) ∧
    (∀ room f, getRoom rooms roomId = some room → 2 ≤ room.players.length →
      room.players.find? (fun p => p.id == sid) = some f → f.isHost = true →
      startGame rooms roomId sid true =
        (setRoom rooms roomId { room with status := .playing, gameReady := false },
         [.toRoom roomId (.gameStarted room.players room.settings .playing room.hostId)]) ∧
      getRoom (startGame rooms roomId sid true).1 roomId =
        some { room with status := .playing, gameReady := false }) := by
  refine ⟨?_, ?_, ?_⟩
  · intro room hg h2
    simpa using startGame_insufficient (c := true) hg h2
  · intro room hg h2 hnh
    have h2' : ¬ room.players.length < 2 := by omega
    cases hfind : room.players.find? (fun p => p.id == sid) with
    | none => simpa using startGame_no_member (c := true) hg h2' hfind
    | some f =>
      have hfm : f ∈ room.players := List.mem_of_find?_eq_some hfind
      have hfid : f.id = sid := by
        have := List.find?_some hfind
        simpa using this
      have hfh : f.isHost = false := hnh f hfm hfid
      simpa using startGame_not_host (c := true) hg h2' hfind hfh
  · intro room f hg h2 hfind hh
    have h2' : ¬ room.players.length < 2 := by omega
    refine ⟨by simpa using startGame_success (c := true) hg h2' hfind hh, ?_⟩
    rw [startGame_success (c := true) hg h2' hfind hh]
    show getRoom (setRoom rooms roomId _) roomId = _
    rw [getRoom_setRoom]
    simp

/-- C6 witness: with one player the host gets `InsufficientPlayers`; with two
players the non-host requester gets `NotHost` and the host start succeeds,
setting the status to playing. -/
theorem startGame_behavior_witness :
    (startGame (createRoom [] "R" 1 []) "R" 1 true =
      (createRoom [] "R" 1 [], [.toSender (.errorMsg InsufficientPlayers)])) ∧
    (startGame wRooms "R" 2 true = (wRooms, [.toSender (.errorMsg NotHost)])) ∧
    (startGame wRooms "R" 1 true =
      (setRoom wRooms "R" { wRoom2 with status := .playing, gameReady := false },
       [.toRoom "R" (.gameStarted wRoom2.players wRoom2.settings .playing wRoom2.hostId)]) ∧
     getRoom (startGame wRooms "R" 1 true).1 "R" =
       some { wRoom2 with status := .playing, gameReady := false }) :=
  ⟨(startGame_behavior (createRoom [] "R" 1 []) "R" 1).1 wRoom1 (by decide) (by decide),
   (startGame_behavior wRooms "R" 2).2.1 wRoom2 (by decide) (by decide)
     (by decide),
   (startGame_behavior wRooms "R" 1).2.2 wRoom2 wPlayer1 (by decide) (by decide)
     (by decide) (by decide)⟩

/-- C3 (amended): `joinRoom` on an unknown id fails with `RoomNotFound`; on a
room with 4 players it always fails with `RoomFull`; on a room with fewer
than 4 players whose status is playing it fails with `GameAlreadyStarted`
(the full-room check runs first, so a full playing room reports `RoomFull`);
in each failure case the registry, hence the room, is unchanged. -/
theorem joinRoom_error_cases (rooms : Rooms) (roomId : RoomId) (pid : Nat)
    (pname : Option JVal) :
    (getRoom rooms roomId = none →
      joinRoom rooms roomId pid pname = (rooms, .failure RoomNotFound)) ∧
    (∀ room, getRoom rooms roomId = some room → room.players.length = 4 →
      joinRoom rooms roomId pid pname = (rooms, .failure RoomFull)) ∧
    (∀ room, getRoom rooms roomId = some room → room.players.length < 4 →
      room.status = .playing →
      joinRoom rooms roomId pid pname = (rooms, .failure GameAlreadyStarted)) := by
  refine ⟨?_, ?_, ?_⟩
  · intro hg
    exact joinRoom_of_none hg
  · intro room hg h4
    exact joinRoom_of_full hg (by omega)
  · intro room hg h4 hs
    have hne : room.status ≠ Status.waiting := by rw [hs]; intro hc; cases hc
    exact joinRoom_of_started hg h4 hne

/-- C3 counterexample: on a reachable full room whose game has started,
`joinRoom` reports `RoomFull`, not `GameAlreadyStarted`, so "joining a
playing room always fails with GameAlreadyStarted" is false as stated. -/
theorem joinRoom_full_playing_reports_roomFull :
    (∃ r ∈ (getRoom cRoomsC3 "R").toList, r.players.length = 4 ∧ r.status = .playing) ∧
    (joinRoom cRoomsC3 "R" 9 none).2 = .failure RoomFull ∧
    RoomFull ≠ GameAlreadyStarted := by
  decide

/-- C3 witness: the three failure cases at concrete inputs — unknown id,
full room, and a playing two-player room. -/
theorem joinRoom_error_cases_witness :
    (joinRoom wRooms "X" 9 none = (wRooms, .failure RoomNotFound)) ∧
    (joinRoom cRoomsC3 "R" 9 none = (cRoomsC3, .failure RoomFull)) ∧
    (joinRoom (startGame wRooms "R" 1 true).1 "R" 9 none =
      ((startGame wRooms "R" 1 true).1, .failure GameAlreadyStarted)) :=
  ⟨(joinRoom_error_cases wRooms "X" 9 none).1 (by decide),
   (joinRoom_error_cases cRoomsC3 "R" 9 none).2.1
     { players := [{ id := 1, name := .str "玩家1", isHost := true, seat := 0 },
                   { id := 2, name := .str "玩家2", isHost := false, seat := 1 },
                   { id := 3, name := .str "玩家3", isHost := false, seat := 2 },
                   { id := 4, name := .str "玩家4", isHost := false, seat := 3 }],
       gameState := none, hostId := 1, settings := wSettings,
       status := .playing, gameReady := false }
     (by decide) (by decide),
   (joinRoom_error_cases (startGame wRooms "R" 1 true).1 "R" 9 none).2.2
     { wRoom2 with status := .playing, gameReady := false }
     (by decide) (by decide) (by decide)⟩

theorem joinResults_map_seatOf (joins : List (Nat × Option JVal)) :
    ∀ (rooms : Rooms) (roomId : RoomId) (room : Room),
      getRoom rooms roomId = some room →
      room.status = Status.waiting →
      room.players.length + joins.length ≤ 4 →
      (joinResults rooms roomId joins).map seatOf =
        (List.range joins.length).map (fun i => some (room.players.length + i)) := by
  induction joins with
  | nil =>
    intro rooms roomId room hg hs hlen
    simp [joinResults]
  | cons j rest ih =>
    intro rooms roomId room hg hs hlen
    obtain ⟨pid, pname⟩ := j
    have h4 : room.players.length < 4 := by
      simp only [List.length_cons] at hlen
      omega
    have hjr := @joinRoom_success rooms roomId pid pname room hg h4 hs
    rw [joinResults, hjr]
    have hg' : getRoom
        (setRoom rooms roomId
          { room with players := room.players ++
              [{ id := pid,
                 name := orDefault pname (.str ("玩家" ++ toString (room.players.length + 1))),
                 isHost := false, seat := room.players.length }] })
        roomId = some
          { room with players := room.players ++
              [{ id := pid,
                 name := orDefault pname (.str ("玩家" ++ toString (room.players.length + 1))),
                 isHost := false, seat := room.players.length }] } := by
      rw [getRoom_setRoom]
      simp
    have hrec := ih _ roomId _ hg' (by simp [hs])
      (by
        simp only [List.length_append, List.length_singleton]
        simp only [List.length_cons] at hlen
        omega)
    simp only [List.length_append, List.length_singleton] at hrec
    simp only [List.map_cons, seatOf, List.length_cons]
    rw [hrec, List.range_succ_eq_map, List.map_cons, List.map_map]
    simp only [List.cons.injEq]
    refine ⟨rfl, ?_⟩
    apply List.map_congr_left
    intro i hi
    simp only [Function.comp]
    congr 1
    omega

theorem filterMap_seatOf_of_map_some (l : List JoinResult) :
    ∀ l' : List Nat, l.map seatOf = l'.map some → l.filterMap seatOf = l' := by
  induction l with
  | nil =>
    intro l' h
    cases l' with
    | nil => simp
    | cons a l' => simp at h
  | cons r rest ih =>
    intro l' h
    cases l' with
    | nil => simp at h
    | cons a l' =>
      simp only [List.map_cons, List.cons.injEq] at h
      rw [List.filterMap_cons, h.1, ih l' h.2]

/-- C4: any sequence of joins on a registered waiting room that keeps the
player count at most 4 succeeds throughout, assigning as seat exactly the
player count just before each insertion — so the seats are
`n, n+1, ...` starting from the current count and strictly increasing. -/
theorem joinRoom_sequence_seats (joins : List (Nat × Option JVal)) (rooms : Rooms)
    (roomId : RoomId) (room : Room)
    (hg : getRoom rooms roomId = some room)
    (hs : room.status = Status.waiting)
    (hlen : room.players.length + joins.length ≤ 4) :
    (joinResults rooms roomId joins).map seatOf =
      (List.range joins.length).map (fun i => some (room.players.length + i)) ∧
    ((joinResults rooms roomId joins).filterMap seatOf).Pairwise (· < ·) := by
  have hmain := joinResults_map_seatOf joins rooms roomId room hg hs hlen
  refine ⟨hmain, ?_⟩
  have hfm : (joinResults rooms roomId joins).filterMap seatOf =
      (List.range joins.length).map (fun i => room.players.length + i) := by
    apply filterMap_seatOf_of_map_some
    rw [hmain, List.map_map]
    rfl
  rw [hfm]
  exact List.Pairwise.map (fun i => room.players.length + i)
    (fun a b (hab : a < b) => by dsimp only; omega)
    (List.pairwise_lt_range joins.length)

/-- C4 witness: two joins on the concrete two-player waiting room get seats
2 and 3. -/
theorem joinRoom_sequence_seats_witness :
    (joinResults wRooms "R" [(3, none), (4, none)]).map seatOf =
      (List.range 2).map (fun i => some (wRoom2.players.length + i)) ∧
    ((joinResults wRooms "R" [(3, none), (4, none)]).filterMap seatOf).Pairwise (· < ·) :=
  joinRoom_sequence_seats [(3, none), (4, none)] wRooms "R" wRoom2
    (by decide) (by decide) (by decide)

theorem players_perm_leaver_filter (ps : List Player) (pid : Nat) (leaver : Player)
    (hmem : leaver ∈ ps) (hid : leaver.id = pid)
    (huniq : ps.countP (fun p => p.id == pid) = 1) :
    ps.Perm (leaver :: ps.filter (fun p => p.id != pid)) := by
  induction ps with
  | nil => cases hmem
  | cons q qs ih =>
    by_cases hq : (q.id == pid) = true
    · have hcq : qs.countP (fun p => p.id == pid) = 0 := by
        rw [List.countP_cons_of_pos (a := q) (fun p : Player => p.id == pid) qs hq] at huniq
        omega
      have hlq : leaver = q := by
        rcases List.mem_cons.1 hmem with h | h
        · exact h
        · exfalso
          have := List.countP_eq_zero.1 hcq leaver h
          simp [hid] at this
      have hfq : qs.filter (fun p => p.id != pid) = qs := by
        apply List.filter_eq_self.2
        intro x hx
        have hx0 := List.countP_eq_zero.1 hcq x hx
        simpa [bne] using hx0
      have hq' : ((fun p : Player => p.id != pid) q) = false := by
        simpa [bne] using hq
      rw [List.filter_cons_of_neg (by simp [hq'])]
      rw [hfq, hlq]
    · have hq' : ((fun p : Player => p.id != pid) q) = true := by
        simpa [bne] using hq
      have hmem' : leaver ∈ qs := by
        rcases List.mem_cons.1 hmem with h | h
        · exfalso
          rw [h] at hid
          rw [hid] at hq
          simp at hq
        · exact h
      have huniq' : qs.countP (fun p => p.id == pid) = 1 := by
        rw [List.countP_cons_of_neg (a := q) (fun p : Player => p.id == pid) qs hq] at huniq
        exact huniq
      have hperm := ih hmem' huniq'
      rw [List.filter_cons_of_pos (p := fun p : Player => p.id != pid) (a := q) (l := qs) hq']
      exact (hperm.cons q).trans (List.Perm.swap leaver q _)

/-- C9: when a player (uniquely identified by its id in the room) leaves a
room and other players remain, every remaining player keeps its id, name and
seat (in order, never renumbered), and the multiset of prior seats is the
leaver's seat plus the multiset of remaining seats — seats may therefore
become non-contiguous.  `disconnect` performs exactly this `leaveRoom`. -/
theorem leaveRoom_frame (rooms : Rooms) (roomId : RoomId) (pid : Nat)
    (room : Room) (leaver p : Player) (rest : List Player)
    (hg : getRoom rooms roomId = some room)
    (hmem : leaver ∈ room.players) (hid : leaver.id = pid)
    (huniq : room.players.countP (fun q => q.id == pid) = 1)
    (hf : room.players.filter (fun q => q.id != pid) = p :: rest) :
    ∃ room', getRoom (leaveRoom rooms roomId pid) roomId = some room' ∧
      room'.players.map (fun q => (q.id, q.name, q.seat)) =
        (p :: rest).map (fun q => (q.id, q.name, q.seat)) ∧
      (↑(room.players.map Player.seat) : Multiset Nat) =
        leaver.seat ::ₘ ↑(room'.players.map Player.seat) := by
  have hperm : room.players.Perm (leaver :: p :: rest) := by
    have h := players_perm_leaver_filter room.players pid leaver hmem hid huniq
    rw [hf] at h
    exact h
  have hseat : (↑(room.players.map Player.seat) : Multiset Nat) =
      leaver.seat ::ₘ ↑((p :: rest).map Player.seat) := by
    have hm := hperm.map Player.seat
    have := (Multiset.coe_eq_coe).2 hm
    rw [this]
    rfl
  cases hw : wasHostOf room pid with
  | true =>
    refine ⟨{ room with players := { p with isHost := true } :: rest, hostId := p.id },
      ?_, ?_, ?_⟩
    · rw [leaveRoom_of_host hg hf hw]
      rw [getRoom_setRoom]
      simp
    · rfl
    · simpa using hseat
  | false =>
    refine ⟨{ room with players := p :: rest }, ?_, ?_, ?_⟩
    · rw [leaveRoom_of_nonhost hg hf hw]
      rw [getRoom_setRoom]
      simp
    · rfl
    · simpa using hseat

/-- C9 witness: the non-host `wPlayer2` leaves the two-player room; the host
keeps id 1, its name and seat 0, and the prior seats {0,1} are the leaver's
seat 1 plus the remaining {0}. -/
theorem leaveRoom_frame_witness :
    ∃ room', getRoom (leaveRoom wRooms "R" 2) "R" = some room' ∧
      room'.players.map (fun q => (q.id, q.name, q.seat)) =
        [wPlayer1].map (fun q => (q.id, q.name, q.seat)) ∧
      (↑(wRoom2.players.map Player.seat) : Multiset Nat) =
        wPlayer2.seat ::ₘ ↑(room'.players.map Player.seat) :=
  leaveRoom_frame wRooms "R" 2 wRoom2 wPlayer2 wPlayer1 []
    (by decide) (by decide) (by decide) (by decide) (by decide)

theorem filter_nonhost_of_host_leaves {room : Room} {pid : Nat}
    (hne : room.players ≠ []) (hah : hostAtHead room)
    (hw : wasHostOf room pid = true) :
    ∀ x ∈ room.players.filter (fun q => q.id != pid), x.isHost = false := by
  obtain ⟨q, qs, hql⟩ : ∃ q qs, room.players = q :: qs := by
    cases hpl : room.players with
    | nil => exact absurd hpl hne
    | cons q qs => exact ⟨q, qs, rfl⟩
  unfold hostAtHead at hah
  rw [hql] at hah
  obtain ⟨hq1, hq2, hq3⟩ := hah
  intro x hx
  have hxm : x ∈ room.players := (List.mem_filter.1 hx).1
  have hxne : (x.id != pid) = true := (List.mem_filter.1 hx).2
  rw [hql] at hxm
  rcases List.mem_cons.1 hxm with hxq | hxqs
  · exfalso
    unfold wasHostOf at hw
    rw [hql] at hw
    by_cases hqp : (q.id == pid) = true
    · have hfind : (q :: qs).find? (fun p => p.id == pid) = some q :=
        List.find?_cons_of_pos qs hqp
      rw [hfind] at hw
      have : q.id = pid := by simpa using hqp
      rw [hxq] at hxne
      simp [this] at hxne
    · have hfind : (q :: qs).find? (fun p => p.id == pid) =
          qs.find? (fun p => p.id == pid) :=
        List.find?_cons_of_neg qs hqp
      rw [hfind] at hw
      cases hfind2 : qs.find? (fun p => p.id == pid) with
      | none =>
        rw [hfind2] at hw
        exact Bool.false_ne_true hw
      | some f =>
        rw [hfind2] at hw
        have hfm : f ∈ qs := List.mem_of_find?_eq_some hfind2
        have hwf : f.isHost = true := hw
        rw [hq3 f hfm] at hwf
        exact Bool.false_ne_true hwf
  · exact hq3 x hxqs

/-- C1 (amended): when the current host departs a room whose player list has
the host-at-index-0 shape and other players remain, afterwards exactly one
remaining player has `isHost = true`, namely the player at index 0 of the
remaining sequence, and `hostId` equals that player's id.  (The promoted
player need not hold the smallest original seat among the remaining
players; see the counterexample.) -/
theorem leaveRoom_host_departure (rooms : Rooms) (roomId : RoomId) (pid : Nat)
    (room : Room) (p : Player) (rest : List Player)
    (hg : getRoom rooms roomId = some room)
    (hah : hostAtHead room)
    (hw : wasHostOf room pid = true)
    (hf : room.players.filter (fun q => q.id != pid) = p :: rest) :
    getRoom (leaveRoom rooms roomId pid) roomId =
      some { room with players := { p with isHost := true } :: rest, hostId := p.id } ∧
    ({ p with isHost := true } :: rest).countP (fun q => q.isHost) = 1 ∧
    ∀ q ∈ rest, q.isHost = false := by
  have hne : room.players ≠ [] := by
    intro h0
    rw [h0] at hf
    simp at hf
  have hrest : ∀ q ∈ rest, q.isHost = false := by
    intro x hx
    apply filter_nonhost_of_host_leaves hne hah hw
    rw [hf]
    exact List.mem_cons_of_mem p hx
  refine ⟨?_, ?_, hrest⟩
  · rw [leaveRoom_of_host hg hf hw, getRoom_setRoom]
    simp
  · have hz : rest.countP (fun q => q.isHost) = 0 :=
      List.countP_eq_zero.2 (fun a ha => by simp [hrest a ha])
    rw [List.countP_cons_of_pos (a := { p with isHost := true })
      (fun q : Player => q.isHost) rest rfl, hz]

/-- C1 counterexample: a reachable sequence (create, three joins, two leaves,
one rejoin, host leaves) ends with the promoted host holding seat 3 while a
remaining player holds seat 2, so "the player with the smallest original
seat among the remaining players" is false as stated of the promoted host. -/
theorem leaveRoom_promoted_host_not_min_seat :
    ∃ r ∈ (getRoom cRoomsC1 "R").toList,
      r.players.countP (fun p => p.isHost) = 1 ∧ r.hostId = 4 ∧
      ∃ p ∈ r.players, p.isHost = true ∧ ∃ q ∈ r.players, q.seat < p.seat := by
  decide

/-- C1 witness: the host of the concrete two-player room leaves; the
remaining player (seat 1) is promoted and `hostId` becomes 2. -/
theorem leaveRoom_host_departure_witness :
    getRoom (leaveRoom wRooms "R" 1) "R" =
      some { wRoom2 with players := [{ wPlayer2 with isHost := true }], hostId := 2 } ∧
    ([{ wPlayer2 with isHost := true }] : List Player).countP (fun q => q.isHost) = 1 ∧
    ∀ q ∈ ([] : List Player), q.isHost = false :=
  leaveRoom_host_departure wRooms "R" 1 wRoom2 wPlayer2 []
    (by decide) ⟨rfl, rfl, by decide⟩ (by decide) (by decide)

